import Mathlib

/-
Verification of the morphing-formation scene in src/index.tsx.

The per-frame and per-detection logic is embedded shallowly over the reals:
JavaScript numbers become real numbers, the mutable SyncData object and the
React isTree flag become explicit state records, and the asynchronous
detection callback becomes a pure state-transition function on those records.
-/

open Real

namespace MorphTree

/-- three.js `THREE.MathUtils.lerp(x, y, t) = (1 - t) * x + t * y`, used by the
gesture bridge (src/index.tsx lines 202-203) and the camera mapper
(lines 649-650). -/
def lerp (x y t : ℝ) : ℝ := (1 - t) * x + t * y

/-- three.js `THREE.MathUtils.damp(x, y, lam, dt) = lerp(x, y, 1 - exp(-lam*dt))`,
the exponential damping step called at src/index.tsx line 621. No clamping of
`dt` happens anywhere in this call chain. -/
noncomputable def damp (x y lam dt : ℝ) : ℝ := lerp x y (1 - Real.exp (-lam * dt))

/-- Morph target from the discrete tree flag: `const target = isTree ? 1 : 0`
(src/index.tsx line 620). -/
def morphTarget (isTree : Bool) : ℝ := if isTree then 1 else 0

/-- The per-frame morph update of the Scene component (src/index.tsx
lines 618-621): `syncData.value = THREE.MathUtils.damp(syncData.value, target, 1.5, delta)`. -/
noncomputable def morphUpdate (value : ℝ) (isTree : Bool) (delta : ℝ) : ℝ :=
  damp value (morphTarget isTree) 1.5 delta

/-- Repeated per-frame morph updates with a fixed target and a fixed
per-frame delta, starting from `v0`. -/
noncomputable def morphSeq (v0 target dt : ℝ) : ℕ → ℝ
  | 0 => v0
  | n + 1 => damp (morphSeq v0 target dt n) target 1.5 dt

/-- Morph value after a list of per-frame damping steps with the given
deltaTime values, starting from value 0 with target 1 and rate 1.5
(the scatter-to-tree toggle scenario of src/index.tsx lines 618-621). -/
noncomputable def valueAfter (dts : List ℝ) : ℝ :=
  dts.foldl (fun v d => damp v 1 1.5 d) 0

/- ### Damping helper lemmas -/

lemma damp_eq (x y lam dt : ℝ) :
    damp x y lam dt = y + (x - y) * Real.exp (-lam * dt) := by
  unfold damp lerp
  ring

lemma exp_damp_pos (lam dt : ℝ) : 0 < Real.exp (-lam * dt) := Real.exp_pos _

lemma exp_damp_le_one (lam dt : ℝ) (hlam : 0 ≤ lam) (hdt : 0 ≤ dt) :
    Real.exp (-lam * dt) ≤ 1 := by
  rw [show (1 : ℝ) = Real.exp 0 by rw [Real.exp_zero]]
  apply Real.exp_le_exp.mpr
  nlinarith

/-- For nonnegative dt the damping step stays between the current value and
the target (lower side: value below target). -/
lemma damp_between_le (v t dt : ℝ) (hdt : 0 ≤ dt) (h : v ≤ t) :
    v ≤ damp v t 1.5 dt ∧ damp v t 1.5 dt ≤ t := by
  rw [damp_eq]
  have h1 := exp_damp_pos 1.5 dt
  have h2 := exp_damp_le_one 1.5 dt (by norm_num) hdt
  constructor <;> nlinarith

/-- For nonnegative dt the damping step stays between the current value and
the target (upper side: value above target). -/
lemma damp_between_ge (v t dt : ℝ) (hdt : 0 ≤ dt) (h : t ≤ v) :
    t ≤ damp v t 1.5 dt ∧ damp v t 1.5 dt ≤ v := by
  rw [damp_eq]
  have h1 := exp_damp_pos 1.5 dt
  have h2 := exp_damp_le_one 1.5 dt (by norm_num) hdt
  constructor <;> nlinarith

lemma morphSeq_le_target (v0 t dt : ℝ) (hdt : 0 ≤ dt) (h : v0 ≤ t) :
    ∀ n, morphSeq v0 t dt n ≤ t := by
  intro n
  induction n with
  | zero => exact h
  | succ k ih => exact (damp_between_le _ _ _ hdt ih).2

lemma morphSeq_ge_target (v0 t dt : ℝ) (hdt : 0 ≤ dt) (h : t ≤ v0) :
    ∀ n, t ≤ morphSeq v0 t dt n := by
  intro n
  induction n with
  | zero => exact h
  | succ k ih => exact (damp_between_ge _ _ _ hdt ih).1

lemma morphSeq_mono (v0 t dt : ℝ) (hdt : 0 ≤ dt) (h : v0 ≤ t) :
    Monotone (morphSeq v0 t dt) := by
  apply monotone_nat_of_le_succ
  intro n
  exact (damp_between_le _ _ _ hdt (morphSeq_le_target v0 t dt hdt h n)).1

lemma morphSeq_anti (v0 t dt : ℝ) (hdt : 0 ≤ dt) (h : t ≤ v0) :
    Antitone (morphSeq v0 t dt) := by
  apply antitone_nat_of_succ_le
  intro n
  exact (damp_between_ge _ _ _ hdt (morphSeq_ge_target v0 t dt hdt h n)).2

/- ### C1 -/

/-- C1: with value in [0,1], target in {0,1}, dampingRate 1.5 and any strictly
positive deltaTime, one per-frame update equals
target + (value - target) * exp(-1.5 * deltaTime); under repeated steps with
fixed positive deltaTime the value moves monotonically toward the target and
never leaves [min(value0, target), max(value0, target)]. -/
theorem morph_damp_no_overshoot (v0 target dt : ℝ)
    (hv : 0 ≤ v0 ∧ v0 ≤ 1) (ht : target = 0 ∨ target = 1) (hdt : 0 < dt) :
    (∀ v, damp v target 1.5 dt = target + (v - target) * Real.exp (-(1.5) * dt)) ∧
    (∀ n, min v0 target ≤ morphSeq v0 target dt n ∧
      morphSeq v0 target dt n ≤ max v0 target) ∧
    (v0 ≤ target → Monotone (morphSeq v0 target dt)) ∧
    (target ≤ v0 → Antitone (morphSeq v0 target dt)) := by
  have hdt0 : 0 ≤ dt := le_of_lt hdt
  refine ⟨fun v => damp_eq v target 1.5 dt, ?_, morphSeq_mono v0 target dt hdt0,
    morphSeq_anti v0 target dt hdt0⟩
  intro n
  rcases le_total v0 target with hle | hge
  · rw [min_eq_left hle, max_eq_right hle]
    exact ⟨(morphSeq_mono v0 target dt hdt0 hle) (Nat.zero_le n),
      morphSeq_le_target v0 target dt hdt0 hle n⟩
  · rw [min_eq_right hge, max_eq_left hge]
    exact ⟨morphSeq_ge_target v0 target dt hdt0 hge n,
      (morphSeq_anti v0 target dt hdt0 hge) (Nat.zero_le n)⟩

/-- Witness for C1 at v0 = 1/2, target = 1, dt = 1. -/
theorem morph_damp_no_overshoot_witness :
    ((0 : ℝ) ≤ 1/2 ∧ (1/2 : ℝ) ≤ 1) ∧ ((1 : ℝ) = 0 ∨ (1 : ℝ) = 1) ∧ (0 : ℝ) < 1 ∧
    ((∀ v, damp v 1 1.5 1 = 1 + (v - 1) * Real.exp (-(1.5) * 1)) ∧
     (∀ n, min (1/2 : ℝ) 1 ≤ morphSeq (1/2) 1 1 n ∧
       morphSeq (1/2) 1 1 n ≤ max (1/2 : ℝ) 1) ∧
     ((1/2 : ℝ) ≤ 1 → Monotone (morphSeq (1/2) 1 1)) ∧
     ((1 : ℝ) ≤ 1/2 → Antitone (morphSeq (1/2) 1 1))) :=
  ⟨by norm_num, Or.inr rfl, by norm_num,
    morph_damp_no_overshoot (1/2) 1 1 (by norm_num) (Or.inr rfl) (by norm_num)⟩

/- ### Numeric exponential bounds -/

lemma exp_three_eq : Real.exp 3 = Real.exp 1 ^ 3 := by
  rw [← Real.exp_nat_mul]
  norm_num

lemma exp_nine_eq : Real.exp 9 = Real.exp 1 ^ 9 := by
  rw [← Real.exp_nat_mul]
  norm_num

lemma exp_six_eq : Real.exp 6 = Real.exp 1 ^ 6 := by
  rw [← Real.exp_nat_mul]
  norm_num

lemma two_lt_exp_3div2 : (2 : ℝ) < Real.exp 1.5 := by
  have hsq : Real.exp 1.5 * Real.exp 1.5 = Real.exp 3 := by
    rw [← Real.exp_add]
    norm_num
  have hlow : (2.7182818283 : ℝ) ^ 3 < Real.exp 1 ^ 3 :=
    pow_lt_pow_left₀ Real.exp_one_gt_d9 (by norm_num) (by norm_num)
  have h3 : (4 : ℝ) < Real.exp 3 := by
    rw [exp_three_eq]
    nlinarith
  nlinarith [Real.exp_pos (1.5 : ℝ)]

lemma exp_9div2_lt_100 : Real.exp 4.5 < 100 := by
  have hsq : Real.exp 4.5 * Real.exp 4.5 = Real.exp 9 := by
    rw [← Real.exp_add]
    norm_num
  have hup : Real.exp 1 ^ 9 < (2.7182818286 : ℝ) ^ 9 :=
    pow_lt_pow_left₀ Real.exp_one_lt_d9 (le_of_lt (Real.exp_pos 1)) (by norm_num)
  have h9 : Real.exp 9 < 10000 := by
    rw [exp_nine_eq]
    nlinarith
  nlinarith [Real.exp_pos (4.5 : ℝ)]

lemma hundred_lt_exp_six : (100 : ℝ) < Real.exp 6 := by
  have hlow : (2.7182818283 : ℝ) ^ 6 < Real.exp 1 ^ 6 :=
    pow_lt_pow_left₀ Real.exp_one_gt_d9 (by norm_num) (by norm_num)
  rw [exp_six_eq]
  nlinarith

/- ### C2 -/

/-- C2 as stated is false: the code never clamps deltaTime, and a negative
deltaTime moves the value away from the target and out of [0,1]: from
value 1/2 with target 1, a step with deltaTime = -1 yields a negative value. -/
theorem damp_negative_dt_retrograde : damp (1/2) 1 1.5 (-1) < 0 := by
  have h : damp (1/2) 1 1.5 (-1) = 1 - Real.exp 1.5 / 2 := by
    rw [damp_eq]
    norm_num
    ring
  rw [h]
  nlinarith [two_lt_exp_3div2]

/-- C2 amended: the damping step applies no clamp; for every deltaTime >= 0
(the only values the frame loop produces) the updated value stays in [0,1]
and never moves away from the target, and deltaTime = 0 leaves the value
exactly unchanged. -/
theorem damp_nonneg_dt_safe (v target dt : ℝ)
    (hv : 0 ≤ v ∧ v ≤ 1) (ht : target = 0 ∨ target = 1) (hdt : 0 ≤ dt) :
    (0 ≤ damp v target 1.5 dt ∧ damp v target 1.5 dt ≤ 1) ∧
    |damp v target 1.5 dt - target| ≤ |v - target| ∧
    damp v target 1.5 0 = v := by
  have hdist : |damp v target 1.5 dt - target| ≤ |v - target| := by
    have heq : damp v target 1.5 dt - target = (v - target) * Real.exp (-(1.5) * dt) := by
      rw [damp_eq]
      ring
    rw [heq, abs_mul, abs_of_pos (Real.exp_pos _)]
    exact mul_le_of_le_one_right (abs_nonneg _) (exp_damp_le_one 1.5 dt (by norm_num) hdt)
  have hzero : damp v target 1.5 0 = v := by
    rw [damp_eq]
    norm_num
  refine ⟨?_, hdist, hzero⟩
  rcases ht with h0 | h1
  · subst h0
    have := damp_between_ge v 0 dt hdt hv.1
    exact ⟨this.1, le_trans this.2 hv.2⟩
  · subst h1
    have := damp_between_le v 1 dt hdt hv.2
    exact ⟨le_trans hv.1 this.1, this.2⟩

/-- Witness for C2 amended at v = 1/2, target = 0, dt = 2. -/
theorem damp_nonneg_dt_safe_witness :
    ((0 : ℝ) ≤ 1/2 ∧ (1/2 : ℝ) ≤ 1) ∧ ((0 : ℝ) = 0 ∨ (0 : ℝ) = 1) ∧ (0 : ℝ) ≤ 2 ∧
    ((0 ≤ damp (1/2) 0 1.5 2 ∧ damp (1/2) 0 1.5 2 ≤ 1) ∧
     |damp (1/2) 0 1.5 2 - 0| ≤ |(1/2 : ℝ) - 0| ∧
     damp (1/2) 0 1.5 0 = 1/2) :=
  ⟨by norm_num, Or.inl rfl, by norm_num,
    damp_nonneg_dt_safe (1/2) 0 2 (by norm_num) (Or.inl rfl) (by norm_num)⟩

/- ### C9 -/

lemma one_sub_foldl_damp (dts : List ℝ) :
    ∀ v0 : ℝ, 1 - dts.foldl (fun v d => damp v 1 1.5 d) v0
      = (1 - v0) * Real.exp (-(1.5) * dts.sum) := by
  induction dts with
  | nil =>
    intro v0
    simp
  | cons d tl ih =>
    intro v0
    have hstep : 1 - damp v0 1 1.5 d = (1 - v0) * Real.exp (-(1.5) * d) := by
      rw [damp_eq]
      ring
    calc 1 - List.foldl (fun v d => damp v 1 1.5 d) v0 (d :: tl)
        = 1 - List.foldl (fun v d => damp v 1 1.5 d) (damp v0 1 1.5 d) tl := by
          simp [List.foldl]
      _ = (1 - damp v0 1 1.5 d) * Real.exp (-(1.5) * tl.sum) := ih _
      _ = (1 - v0) * (Real.exp (-(1.5) * d) * Real.exp (-(1.5) * tl.sum)) := by
          rw [hstep]
          ring
      _ = (1 - v0) * Real.exp (-(1.5) * (d :: tl).sum) := by
          rw [← Real.exp_add, List.sum_cons]
          ring_nf

lemma valueAfter_eq (dts : List ℝ) :
    valueAfter dts = 1 - Real.exp (-(1.5) * dts.sum) := by
  have h := one_sub_foldl_damp dts 0
  unfold valueAfter
  linarith [h]

/-- C9 as stated is false: from value 0 with target 1 and dampingRate 1.5,
deltaTime accumulating to exactly 3 time units leaves the value at
1 - exp(-4.5), about 0.9889, which is below 0.99. -/
theorem valueAfter_three_below_99 : valueAfter [3] < 0.99 := by
  have h : valueAfter [3] = 1 - Real.exp (-(4.5)) := by
    rw [valueAfter_eq]
    norm_num
  rw [h, Real.exp_neg]
  have hpos : (0 : ℝ) < Real.exp 4.5 := Real.exp_pos _
  have hinv : Real.exp 4.5 * (Real.exp 4.5)⁻¹ = 1 :=
    mul_inv_cancel₀ (ne_of_gt hpos)
  nlinarith [exp_9div2_lt_100, mul_pos (sub_pos.mpr exp_9div2_lt_100)
    (inv_pos.mpr hpos)]

/-- C9 amended: from value 0 with target 1 and dampingRate 1.5, after
per-frame damping steps whose deltaTime values accumulate to at least
log(100)/1.5 (about 3.07) time units, the value is within 1% of 1.0. -/
theorem valueAfter_ge_99 (dts : List ℝ)
    (hsum : Real.log 100 / 1.5 ≤ dts.sum) : 0.99 ≤ valueAfter dts := by
  rw [valueAfter_eq]
  have hlog : Real.log 100 ≤ 1.5 * dts.sum := by
    rw [div_le_iff₀ (by norm_num : (0:ℝ) < 1.5)] at hsum
    linarith
  have hexp : Real.exp (-(1.5) * dts.sum) ≤ Real.exp (-Real.log 100) := by
    apply Real.exp_le_exp.mpr
    linarith
  have h100 : Real.exp (-Real.log 100) = 1 / 100 := by
    rw [Real.exp_neg, Real.exp_log (by norm_num : (0:ℝ) < 100)]
    norm_num
  rw [h100] at hexp
  linarith

/-- Witness for C9 amended with the single step deltaTime = 4. -/
theorem valueAfter_ge_99_witness :
    Real.log 100 / 1.5 ≤ ([4] : List ℝ).sum ∧ 0.99 ≤ valueAfter [4] := by
  have hsum : Real.log 100 / 1.5 ≤ ([4] : List ℝ).sum := by
    have hlog : Real.log 100 ≤ 6 :=
      (Real.log_le_iff_le_exp (by norm_num)).mpr (le_of_lt hundred_lt_exp_six)
    simp only [List.sum_cons, List.sum_nil]
    norm_num
    linarith
  exact ⟨hsum, valueAfter_ge_99 [4] hsum⟩

/- ### Gesture bridge (GestureController, src/index.tsx lines 187-218) -/

/-- Classification label of a detected hand: categoryName of gestures[0][0].
The string label Open_Palm becomes openPalm, Closed_Fist becomes closedFist,
and every other label becomes other. -/
inductive GestureLabel
  | openPalm
  | closedFist
  | other

/-- A landmark point as delivered by the recognizer, coordinates in [0,1]. -/
structure Landmark where
  x : ℝ
  y : ℝ

/-- One detection result: at most one hand. When a hand is present it carries
the classification label and landmark 9 (middle finger mcp) of landmarks[0];
`none` models empty gestures or landmarks arrays. -/
structure DetectionResult where
  hand : Option (GestureLabel × Landmark)

/-- The state the GestureController writes: the SyncData fields it touches
(handX, handY, hasHand) plus the React isTree flag set through setTreeState. -/
structure BridgeState where
  handX : ℝ
  handY : ℝ
  hasHand : Bool
  isTree : Bool

/-- One pass of the GestureController recognition-loop body
(src/index.tsx lines 192-215): with a hand present, hasHand is set, the raw
position is landmark 9 mirrored in X (handX = 1 - landmarks[9].x,
handY = landmarks[9].y), both smoothed fields move by lerp(smoothed, raw, 0.1),
and the label drives setTreeState (Open_Palm scatters, Closed_Fist assembles,
anything else leaves the flag); with no hand, only hasHand is cleared. -/
def processResult (s : BridgeState) (res : DetectionResult) : BridgeState :=
  match res.hand with
  | some (label, lm) =>
    { handX := lerp s.handX (1 - lm.x) 0.1
      handY := lerp s.handY lm.y 0.1
      hasHand := true
      isTree :=
        match label with
        | GestureLabel.openPalm => false
        | GestureLabel.closedFist => true
        | GestureLabel.other => s.isTree }
  | none => { s with hasHand := false }

/-- The initial shared state of the App component (src/index.tsx
lines 700-708): handX = handY = 0.5, hasHand = false, isTree = false. -/
def initialState : BridgeState :=
  { handX := 0.5, handY := 0.5, hasHand := false, isTree := false }

/- ### Camera mapper (Scene useFrame, src/index.tsx lines 624-660) -/

/-- targetAzimuth = (handX - 0.5) * PI (src/index.tsx line 633). -/
noncomputable def targetAzimuth (handX : ℝ) : ℝ := (handX - 0.5) * π

/-- The OrbitControls minPolarAngle prop, PI/4 (src/index.tsx line 669),
also the lower end of the targetPolar map. -/
noncomputable def polarMin : ℝ := π / 4

/-- The OrbitControls maxPolarAngle prop, PI/1.5 (src/index.tsx line 670),
also the upper end of the targetPolar map. -/
noncomputable def polarMax : ℝ := π / 1.5

/-- targetPolar = PI/4 + handY * (PI/1.5 - PI/4) (src/index.tsx line 638). -/
noncomputable def targetPolar (handY : ℝ) : ℝ := π / 4 + handY * (π / 1.5 - π / 4)

/-- The camera angles and autoRotate flag of the orbit controls. -/
structure CameraState where
  azimuth : ℝ
  polar : ℝ
  autoRotate : Bool

/-- The camera part of the Scene per-frame update (src/index.tsx
lines 624-660): with a hand present autoRotate is cleared and each angle is
lerped toward its target by 0.05; with no hand autoRotate is set to isTree
and the subsequent controls.update() applies the constant per-update
auto-rotation step `rotStep` exactly when autoRotate is set (the external
OrbitControls collaborator with autoRotateSpeed 0.5 rotates by a constant
angle per update). -/
noncomputable def cameraFrame (c : CameraState) (hasHand isTree : Bool)
    (handX handY rotStep : ℝ) : CameraState :=
  if hasHand then
    { azimuth := lerp c.azimuth (targetAzimuth handX) 0.05
      polar := lerp c.polar (targetPolar handY) 0.05
      autoRotate := false }
  else
    { azimuth := if isTree then c.azimuth + rotStep else c.azimuth
      polar := c.polar
      autoRotate := isTree }

lemma targetPolar_mem (hy : ℝ) (h0 : 0 ≤ hy) (h1 : hy ≤ 1) :
    polarMin ≤ targetPolar hy ∧ targetPolar hy ≤ polarMax := by
  unfold polarMin polarMax targetPolar
  have hpi := Real.pi_pos
  have hd : 0 ≤ π / 1.5 - π / 4 := by
    have h : π / 1.5 - π / 4 = π * (5 / 12) := by ring
    rw [h]
    positivity
  constructor
  · nlinarith [mul_nonneg h0 hd]
  · nlinarith [mul_nonneg (sub_nonneg.mpr h1) hd]

/- ### C3 -/

/-- C3: while a hand is present, targetAzimuth = (handX - 0.5) * PI, hence
-PI/2, 0 and PI/2 at handX = 0, 0.5, 1; targetPolar = polarMin +
handY * (polarMax - polarMin) with polarMin = PI/4 and polarMax = PI/1.5
stays in [polarMin, polarMax] for handY in [0,1]; and both current angles
are blended toward their targets by the fixed factor 0.05 per frame. -/
theorem camera_mapper_spec (hy : ℝ) (hhy : 0 ≤ hy ∧ hy ≤ 1) :
    targetAzimuth 0 = -(π / 2) ∧ targetAzimuth (1/2) = 0 ∧ targetAzimuth 1 = π / 2 ∧
    polarMin = π / 4 ∧ polarMax = π / 1.5 ∧
    targetPolar hy = polarMin + hy * (polarMax - polarMin) ∧
    polarMin ≤ targetPolar hy ∧ targetPolar hy ≤ polarMax ∧
    (∀ c isTree hx step, (cameraFrame c true isTree hx hy step).azimuth
        = lerp c.azimuth (targetAzimuth hx) 0.05 ∧
      (cameraFrame c true isTree hx hy step).polar
        = lerp c.polar (targetPolar hy) 0.05) := by
  obtain ⟨hb, ht⟩ := targetPolar_mem hy hhy.1 hhy.2
  refine ⟨?_, ?_, ?_, rfl, rfl, rfl, hb, ht, ?_⟩
  · unfold targetAzimuth
    ring
  · unfold targetAzimuth
    norm_num
  · unfold targetAzimuth
    ring
  · intro c isTree hx step
    constructor <;> simp [cameraFrame]

/-- Witness for C3 at handY = 0. -/
theorem camera_mapper_spec_witness :
    ((0 : ℝ) ≤ 0 ∧ (0 : ℝ) ≤ 1) ∧
    (targetAzimuth 0 = -(π / 2) ∧ targetAzimuth (1/2) = 0 ∧ targetAzimuth 1 = π / 2 ∧
     polarMin = π / 4 ∧ polarMax = π / 1.5 ∧
     targetPolar 0 = polarMin + 0 * (polarMax - polarMin) ∧
     polarMin ≤ targetPolar 0 ∧ targetPolar 0 ≤ polarMax ∧
     (∀ c isTree hx step, (cameraFrame c true isTree hx 0 step).azimuth
         = lerp c.azimuth (targetAzimuth hx) 0.05 ∧
       (cameraFrame c true isTree hx 0 step).polar
         = lerp c.polar (targetPolar 0) 0.05)) :=
  ⟨by norm_num, camera_mapper_spec 0 (by norm_num)⟩

/- ### C4 -/

/-- C4: the gesture label maps directly to the morph target: Open_Palm sets
the tree flag false (target 0, Scattered), Closed_Fist sets it true
(target 1, Assembled), any other label leaves it unchanged; in particular a
closed-fist result makes the target 1 in a single step whatever the previous
flag, with no intermediate target value. -/
theorem gesture_label_sets_target (s : BridgeState) (lm : Landmark) :
    (processResult s ⟨some (GestureLabel.openPalm, lm)⟩).isTree = false ∧
    morphTarget (processResult s ⟨some (GestureLabel.openPalm, lm)⟩).isTree = 0 ∧
    (processResult s ⟨some (GestureLabel.closedFist, lm)⟩).isTree = true ∧
    morphTarget (processResult s ⟨some (GestureLabel.closedFist, lm)⟩).isTree = 1 ∧
    (processResult s ⟨some (GestureLabel.other, lm)⟩).isTree = s.isTree :=
  ⟨rfl, rfl, rfl, rfl, rfl⟩

/- ### C5 -/

/-- C5: a result with no hand sets hasHand to false and leaves the smoothed
handX and handY fields exactly unchanged. -/
theorem no_hand_freezes_position (s : BridgeState) :
    (processResult s ⟨none⟩).hasHand = false ∧
    (processResult s ⟨none⟩).handX = s.handX ∧
    (processResult s ⟨none⟩).handY = s.handY :=
  ⟨rfl, rfl, rfl⟩

/- ### C6 -/

/-- C6: per frame, auto-rotation is set exactly when no hand is present and
the tree flag (Assembled target) is set: a present hand clears it that same
frame, and with no hand and the flag set the azimuth advances by the constant
auto-rotate step; the condition is a pure function of the current state, not
of edges. -/
theorem auto_rotate_iff_no_hand_and_assembled (c : CameraState)
    (hasHand isTree : Bool) (hx hy step : ℝ) :
    ((cameraFrame c hasHand isTree hx hy step).autoRotate = (!hasHand && isTree)) ∧
    (cameraFrame c true isTree hx hy step).autoRotate = false ∧
    (cameraFrame c false true hx hy step).autoRotate = true ∧
    (cameraFrame c false true hx hy step).azimuth = c.azimuth + step ∧
    (cameraFrame c false false hx hy step).azimuth = c.azimuth ∧
    (cameraFrame c false false hx hy step).autoRotate = false := by
  refine ⟨?_, ?_, ?_, ?_, ?_, ?_⟩ <;> cases hasHand <;> simp [cameraFrame]

/- ### C10 -/

lemma processResult_preserves_unit (s : BridgeState) (res : DetectionResult)
    (hs : 0 ≤ s.handX ∧ s.handX ≤ 1 ∧ 0 ≤ s.handY ∧ s.handY ≤ 1)
    (hres : ∀ label lm, res.hand = some (label, lm) →
      0 ≤ lm.x ∧ lm.x ≤ 1 ∧ 0 ≤ lm.y ∧ lm.y ≤ 1) :
    0 ≤ (processResult s res).handX ∧ (processResult s res).handX ≤ 1 ∧
    0 ≤ (processResult s res).handY ∧ (processResult s res).handY ≤ 1 := by
  obtain ⟨a0, a1, b0, b1⟩ := hs
  match hres0 : res.hand with
  | none =>
    simp only [processResult, hres0]
    exact ⟨a0, a1, b0, b1⟩
  | some (label, lm) =>
    obtain ⟨hx0, hx1, hy0, hy1⟩ := hres label lm hres0
    simp only [processResult, hres0, lerp]
    refine ⟨?_, ?_, ?_, ?_⟩ <;> nlinarith

lemma foldl_processResult_unit (results : List DetectionResult) :
    ∀ s : BridgeState,
      (0 ≤ s.handX ∧ s.handX ≤ 1 ∧ 0 ≤ s.handY ∧ s.handY ≤ 1) →
      (∀ res ∈ results, ∀ label lm, res.hand = some (label, lm) →
        0 ≤ lm.x ∧ lm.x ≤ 1 ∧ 0 ≤ lm.y ∧ lm.y ≤ 1) →
      0 ≤ (results.foldl processResult s).handX ∧
      (results.foldl processResult s).handX ≤ 1 ∧
      0 ≤ (results.foldl processResult s).handY ∧
      (results.foldl processResult s).handY ≤ 1 := by
  induction results with
  | nil =>
    intro s hs _
    simpa using hs
  | cons r tl ih =>
    intro s hs hres
    simp only [List.foldl_cons]
    exact ih _
      (processResult_preserves_unit s r hs
        (fun label lm h => hres r (by simp) label lm h))
      (fun res hmem label lm h => hres res (by simp [hmem]) label lm h)

/-- C10: starting from the initial state (handX = handY = 0.5), every
sequence of detection results whose landmarks lie in [0,1] keeps the smoothed
handX and handY in [0,1] — the hand-present lerp with both endpoints in [0,1]
(including the mirrored 1 - landmark.x) stays in [0,1] and no-hand results
change nothing — and consequently targetPolar of the smoothed handY stays in
[polarMin, polarMax] with no explicit clamp. -/
theorem smoothed_hand_stays_in_unit (results : List DetectionResult)
    (hres : ∀ res ∈ results, ∀ label lm, res.hand = some (label, lm) →
      0 ≤ lm.x ∧ lm.x ≤ 1 ∧ 0 ≤ lm.y ∧ lm.y ≤ 1) :
    (0 ≤ (results.foldl processResult initialState).handX ∧
     (results.foldl processResult initialState).handX ≤ 1 ∧
     0 ≤ (results.foldl processResult initialState).handY ∧
     (results.foldl processResult initialState).handY ≤ 1) ∧
    polarMin ≤ targetPolar (results.foldl processResult initialState).handY ∧
    targetPolar (results.foldl processResult initialState).handY ≤ polarMax := by
  have h := foldl_processResult_unit results initialState
    (by norm_num [initialState]) hres
  exact ⟨h, targetPolar_mem _ h.2.2.1 h.2.2.2⟩

/-- Witness for C10 with a single closed-fist result at landmark (1/2, 1/2). -/
theorem smoothed_hand_stays_in_unit_witness :
    (∀ res ∈ [(⟨some (GestureLabel.closedFist, ⟨1/2, 1/2⟩)⟩ : DetectionResult)],
      ∀ label lm, res.hand = some (label, lm) →
      0 ≤ lm.x ∧ lm.x ≤ 1 ∧ 0 ≤ lm.y ∧ lm.y ≤ 1) ∧
    ((0 ≤ ([(⟨some (GestureLabel.closedFist, ⟨1/2, 1/2⟩)⟩ : DetectionResult)].foldl
        processResult initialState).handX ∧
      ([(⟨some (GestureLabel.closedFist, ⟨1/2, 1/2⟩)⟩ : DetectionResult)].foldl
        processResult initialState).handX ≤ 1 ∧
      0 ≤ ([(⟨some (GestureLabel.closedFist, ⟨1/2, 1/2⟩)⟩ : DetectionResult)].foldl
        processResult initialState).handY ∧
      ([(⟨some (GestureLabel.closedFist, ⟨1/2, 1/2⟩)⟩ : DetectionResult)].foldl
        processResult initialState).handY ≤ 1) ∧
     polarMin ≤ targetPolar ([(⟨some (GestureLabel.closedFist, ⟨1/2, 1/2⟩)⟩ :
        DetectionResult)].foldl processResult initialState).handY ∧
     targetPolar ([(⟨some (GestureLabel.closedFist, ⟨1/2, 1/2⟩)⟩ :
        DetectionResult)].foldl processResult initialState).handY ≤ polarMax) := by
  have hres : ∀ res ∈ [(⟨some (GestureLabel.closedFist, ⟨1/2, 1/2⟩)⟩ : DetectionResult)],
      ∀ label lm, res.hand = some (label, lm) →
      0 ≤ lm.x ∧ lm.x ≤ 1 ∧ 0 ≤ lm.y ∧ lm.y ≤ 1 := by
    intro res hmem label lm heq
    simp only [List.mem_singleton] at hmem
    subst hmem
    simp only [Option.some.injEq, Prod.mk.injEq] at heq
    obtain ⟨hlab, hlm⟩ := heq
    subst hlm
    norm_num
  exact ⟨hres, smoothed_hand_stays_in_unit _ hres⟩

/- ### Spatial generators (src/index.tsx lines 19-56) -/

/-- randomInSphere (src/index.tsx lines 19-31) with the three Math.random()
draws made explicit: theta = 2*PI*u, phi = acos(2*v - 1),
r = cbrt(w) * radius (the cube root embedded as the real power 1/3 of the
nonnegative draw w), returning
(r*sin(phi)*cos(theta), r*sin(phi)*sin(theta), r*cos(phi)). -/
noncomputable def randomInSphere (radius u v w : ℝ) : ℝ × ℝ × ℝ :=
  let theta := 2 * π * u
  let phi := Real.arccos (2 * v - 1)
  let r := w ^ ((1 : ℝ) / 3) * radius
  (r * Real.sin phi * Real.cos theta,
   r * Real.sin phi * Real.sin theta,
   r * Real.cos phi)

/-- pointOnConeSurface (src/index.tsx lines 47-56) with the angle draw made
explicit: y = t*h - h/2, rAtY = r*(1 - t), returning
(rAtY*cos(angle), y, rAtY*sin(angle)). -/
noncomputable def pointOnConeSurface (h r t angle : ℝ) : ℝ × ℝ × ℝ :=
  (r * (1 - t) * Real.cos angle, t * h - h / 2, r * (1 - t) * Real.sin angle)

/-- Euclidean norm of an embedded 3D point. -/
noncomputable def norm3 (p : ℝ × ℝ × ℝ) : ℝ :=
  Real.sqrt (p.1 ^ 2 + p.2.1 ^ 2 + p.2.2 ^ 2)

/-- Length of the horizontal (x, z) component of an embedded 3D point. -/
noncomputable def normXZ (p : ℝ × ℝ × ℝ) : ℝ :=
  Real.sqrt (p.1 ^ 2 + p.2.2 ^ 2)

lemma sq_norm_spherical (r phi theta : ℝ) :
    (r * Real.sin phi * Real.cos theta) ^ 2 + (r * Real.sin phi * Real.sin theta) ^ 2
      + (r * Real.cos phi) ^ 2 = r ^ 2 := by
  have h1 := Real.sin_sq_add_cos_sq phi
  have h2 := Real.sin_sq_add_cos_sq theta
  linear_combination (r ^ 2 * Real.sin phi ^ 2) * h2 + r ^ 2 * h1

lemma norm3_randomInSphere (radius u v w : ℝ) (hw : 0 ≤ w) (hradius : 0 ≤ radius) :
    norm3 (randomInSphere radius u v w) = w ^ ((1 : ℝ) / 3) * radius := by
  have hr0 : 0 ≤ w ^ ((1 : ℝ) / 3) * radius :=
    mul_nonneg (Real.rpow_nonneg hw _) hradius
  unfold norm3 randomInSphere
  dsimp only
  rw [sq_norm_spherical]
  exact Real.sqrt_sq hr0

/- ### C7 -/

/-- C7: for radius > 0 and uniform draws u, v, w in [0,1], the point built by
randomInSphere from theta = 2*PI*u, phi = acos(2*v - 1) and radial distance
cbrt(w) * radius has norm at most radius, and its norm cubed equals
w * radius^3, so the cubed norm is uniform when w is (volumetric uniformity,
not uniform radius). -/
theorem randomInSphere_volumetric (radius u v w : ℝ) (hradius : 0 < radius)
    (hu : 0 ≤ u ∧ u ≤ 1) (hv : 0 ≤ v ∧ v ≤ 1) (hw : 0 ≤ w ∧ w ≤ 1) :
    norm3 (randomInSphere radius u v w) ≤ radius ∧
    norm3 (randomInSphere radius u v w) ^ 3 = w * radius ^ 3 := by
  have hn := norm3_randomInSphere radius u v w hw.1 (le_of_lt hradius)
  constructor
  · rw [hn]
    calc w ^ ((1 : ℝ) / 3) * radius
        ≤ 1 * radius := by
          apply mul_le_mul_of_nonneg_right _ (le_of_lt hradius)
          exact Real.rpow_le_one hw.1 hw.2 (by norm_num)
      _ = radius := one_mul radius
  · rw [hn]
    have hcube : (w ^ ((1 : ℝ) / 3)) ^ (3 : ℕ) = w := by
      rw [← Real.rpow_natCast (w ^ ((1 : ℝ) / 3)) 3, ← Real.rpow_mul hw.1]
      norm_num
    calc (w ^ ((1 : ℝ) / 3) * radius) ^ 3
        = (w ^ ((1 : ℝ) / 3)) ^ (3 : ℕ) * radius ^ 3 := by ring
      _ = w * radius ^ 3 := by rw [hcube]

/-- Witness for C7 at radius = 1, u = v = w = 0. -/
theorem randomInSphere_volumetric_witness :
    (0 : ℝ) < 1 ∧ ((0 : ℝ) ≤ 0 ∧ (0 : ℝ) ≤ 1) ∧
    (norm3 (randomInSphere 1 0 0 0) ≤ 1 ∧
     norm3 (randomInSphere 1 0 0 0) ^ 3 = 0 * 1 ^ 3) :=
  ⟨by norm_num, by norm_num,
    randomInSphere_volumetric 1 0 0 0 (by norm_num) (by norm_num) (by norm_num)
      (by norm_num)⟩

/- ### C8 -/

/-- C8: for every height h, nonnegative base radius r (a radius), fraction t
in [0,1] and angle draw, the point built by pointOnConeSurface lies exactly
on the lateral surface of the cone: its horizontal norm equals r * (1 - t)
and its y coordinate equals t * h - h / 2. -/
theorem pointOnConeSurface_on_surface (h r t angle : ℝ)
    (hr : 0 ≤ r) (ht : 0 ≤ t ∧ t ≤ 1) :
    normXZ (pointOnConeSurface h r t angle) = r * (1 - t) ∧
    (pointOnConeSurface h r t angle).2.1 = t * h - h / 2 := by
  refine ⟨?_, rfl⟩
  unfold normXZ pointOnConeSurface
  dsimp only
  have key : (r * (1 - t) * Real.cos angle) ^ 2 + (r * (1 - t) * Real.sin angle) ^ 2
      = (r * (1 - t)) ^ 2 := by
    have h1 := Real.sin_sq_add_cos_sq angle
    linear_combination (r * (1 - t)) ^ 2 * h1
  rw [key]
  exact Real.sqrt_sq (mul_nonneg hr (by linarith [ht.2]))

/-- Witness for C8 at h = 1, r = 1, t = 1/2, angle = 0. -/
theorem pointOnConeSurface_on_surface_witness :
    (0 : ℝ) ≤ 1 ∧ ((0 : ℝ) ≤ 1/2 ∧ (1/2 : ℝ) ≤ 1) ∧
    (normXZ (pointOnConeSurface 1 1 (1/2) 0) = 1 * (1 - 1/2) ∧
     (pointOnConeSurface 1 1 (1/2) 0).2.1 = 1/2 * 1 - 1 / 2) :=
  ⟨by norm_num, by norm_num,
    pointOnConeSurface_on_surface 1 1 (1/2) 0 (by norm_num) (by norm_num)⟩

end MorphTree
